import Mathlib

/-!
Verification of the audio-response combination and WAV encoding routine of
the `presence` repository (the `combineAudioRecordings` / `combineAudioAndFinish`
functions and the two copies of `bufferToWave` in the front-end scripts).

The JavaScript is shallowly embedded:

* floating-point sample values and JS `number` arithmetic are modelled as
  exact rationals (`ℚ`);
* byte buffers (`ArrayBuffer` + `DataView`) are modelled as `List ℕ`, each
  entry one byte; the sequential `setUint16`/`setUint32`/`setInt16` writes
  starting from a zero-initialised buffer become list appends plus a
  trailing zero pad;
* `AudioBuffer` keeps its channel data as `List (List ℚ)` and its sample
  rate; an out-of-range channel read (JS `undefined`, which flows through
  `Math.min`/`Math.max` as `NaN` and ends in `NaN | 0 = 0`) is modelled by
  `Option`;
* the `async` combine method is a pure function from an explicit
  interview-manager state to (new state, emitted UI effects, outcome);
  since every statement after the empty-input early return sits inside a
  `try`/`catch` whose handler swallows the error, the embedded outcome is
  always `resolved`, never `thrown`.
-/

namespace Presence

/-! ## Byte-level primitives (`DataView` little-endian writes) -/

/-- The two little-endian bytes `setUint16` stores for the value `n`. -/
def le16 (n : ℕ) : List ℕ := [n % 256, n / 256 % 256]

/-- The four little-endian bytes `setUint32` stores for the value `n`
(JS converts the argument with `ToUint32`, i.e. modulo `2^32`). -/
def le32 (n : ℕ) : List ℕ :=
  [n % 256, n / 256 % 256, n / 65536 % 256, n / 16777216 % 256]

/-- The two little-endian bytes `view.setInt16(pos, i, true)` stores:
the 16-bit two-complement pattern of `i`. -/
def int16LE (i : ℤ) : List ℕ := le16 (i % 65536).toNat

/-- Read back a little-endian 16-bit integer at byte offset `off`. -/
def readUInt16LE (bs : List ℕ) (off : ℕ) : ℕ :=
  bs.getD off 0 + 256 * bs.getD (off + 1) 0

/-- Read back a little-endian 32-bit integer at byte offset `off`. -/
def readUInt32LE (bs : List ℕ) (off : ℕ) : ℕ :=
  bs.getD off 0 + 256 * bs.getD (off + 1) 0 + 65536 * bs.getD (off + 2) 0 +
    16777216 * bs.getD (off + 3) 0

/-! ## Sample conversion (the clamp-and-scale line of `bufferToWave`) -/

/-- JS `x | 0` on a (finite, in-range) number: truncation toward zero. -/
def jsTrunc (q : ℚ) : ℤ := if 0 ≤ q then ⌊q⌋ else -⌊-q⌋

/-- `Math.max(-1, Math.min(1, s))`. -/
def clampSample (s : ℚ) : ℚ := max (-1) (min 1 s)

/-- `(0.5 + sample < 0 ? sample * 32768 : sample * 32767) | 0`.
Note that by JS operator precedence the condition is `(0.5 + sample) < 0`,
i.e. `sample < -0.5`, and `| 0` truncates toward zero. -/
def scaleSample (c : ℚ) : ℤ :=
  if (1 / 2 : ℚ) + c < 0 then jsTrunc (c * 32768) else jsTrunc (c * 32767)

/-- The 16-bit value written for one channel read `channels[i][offset]`.
`none` is an out-of-range read: JS `undefined`, which propagates as `NaN`
through the clamp and scale and is finally converted by `| 0` to `0`. -/
def encodeSample : Option ℚ → ℤ
  | none => 0
  | some s => scaleSample (clampSample s)

/-! ## The data-writing loop of `bufferToWave` -/

/-- One iteration of the inner `for (i = 0; i < numOfChan; i++)` loop:
the interleaved frame of little-endian 16-bit samples at `offset = off`. -/
def sampleFrame (channels : List (List ℚ)) (off : ℕ) : List ℕ :=
  (channels.map fun ch => int16LE (encodeSample ch[off]?)).flatten

/-- The `while (pos < length)` loop of the standalone `bufferToWave`
(`part_002`): each pass writes one interleaved frame (`2 * numOfChan` bytes)
and advances `offset`; it stops when the byte position reaches the buffer
end, i.e. when the remaining byte count `rem` hits `0`.  The `channels = []`
guard mirrors that with zero channels the loop body writes nothing; in the
source this situation makes `rem = 0` from the start. -/
def writeData (channels : List (List ℚ)) (off rem : ℕ) : List ℕ :=
  if _h : rem = 0 ∨ channels = [] then []
  else
    sampleFrame channels off ++ writeData channels (off + 1) (rem - 2 * channels.length)
termination_by rem
decreasing_by
  simp only [not_or] at _h
  have hpos : 0 < channels.length := List.length_pos.mpr _h.2
  omega

/-- The data-writing loop of the `InterviewManager` method version of
`bufferToWave` (`part_001`), which adds `if (offset >= channels[0].length) break;`
at the end of each pass. -/
def writeDataBreak (channels : List (List ℚ)) (off rem : ℕ) : List ℕ :=
  if _h : rem = 0 ∨ channels = [] then []
  else
    sampleFrame channels off ++
      (if (channels.headD []).length ≤ off + 1 then []
       else writeDataBreak channels (off + 1) (rem - 2 * channels.length))
termination_by rem
decreasing_by
  simp only [not_or] at _h
  have hpos : 0 < channels.length := List.length_pos.mpr _h.2
  omega

/-! ## `AudioBuffer` and the WAV encoders -/

/-- A Web Audio `AudioBuffer`: per-channel sample data and a sample rate. -/
structure AudioBuffer where
  channels : List (List ℚ)
  sampleRate : ℕ
  deriving DecidableEq

/-- `abuffer.numberOfChannels`. -/
def AudioBuffer.numberOfChannels (b : AudioBuffer) : ℕ := b.channels.length

/-- `abuffer.getChannelData(0)` (`[]` when there is no channel, like the
JS `undefined`; the combine code only reads channel 0 of mono buffers). -/
def AudioBuffer.chan0 (b : AudioBuffer) : List ℚ := b.channels.headD []

/-- `abuffer.length`: the frame count, i.e. the per-channel sample count. -/
def AudioBuffer.length (b : AudioBuffer) : ℕ := b.chan0.length

/-- `abuffer.duration = abuffer.length / abuffer.sampleRate` (exact-rational
model of the JS double division). -/
def AudioBuffer.duration (b : AudioBuffer) : ℚ :=
  (b.length : ℚ) / (b.sampleRate : ℚ)

/-- The 44-byte RIFF/WAVE header exactly as the `setUint32`/`setUint16`
calls of `bufferToWave` emit it (both copies write the same header). -/
def wavHeader (numOfChan sampleRate length : ℕ) : List ℕ :=
  le32 0x46464952 ++ le32 (length - 8) ++ le32 0x45564157 ++
  le32 0x20746d66 ++ le32 16 ++ le16 1 ++ le16 numOfChan ++
  le32 sampleRate ++ le32 (sampleRate * 2 * numOfChan) ++
  le16 (numOfChan * 2) ++ le16 16 ++
  le32 0x61746164 ++ le32 (length - 44)

/-- The standalone `bufferToWave(abuffer, len)` function of `part_002`:
allocate `length = len * numOfChan * 2 + 44` zero bytes, write the header
and then interleaved data while `pos < length`.  The result is the whole
`ArrayBuffer`: the bytes actually written followed by whatever zeroes of
the allocation were never touched. -/
def bufferToWave (abuffer : AudioBuffer) (len : ℕ) : List ℕ :=
  let numOfChan := abuffer.channels.length
  let length := len * numOfChan * 2 + 44
  let written := wavHeader numOfChan abuffer.sampleRate length ++
    writeData abuffer.channels 0 (length - 44)
  written ++ List.replicate (length - written.length) 0

/-- The `InterviewManager.bufferToWave` method of `part_001`: identical to
the standalone function except for the extra
`if (offset >= channels[0].length) break;` inside the data loop. -/
def bufferToWaveMethod (abuffer : AudioBuffer) (len : ℕ) : List ℕ :=
  let numOfChan := abuffer.channels.length
  let length := len * numOfChan * 2 + 44
  let written := wavHeader numOfChan abuffer.sampleRate length ++
    writeDataBreak abuffer.channels 0 (length - 44)
  written ++ List.replicate (length - written.length) 0

/-! ## The combine operation (`InterviewManager.combineAudioRecordings`) -/

/-- The slice of `InterviewManager` state that `combineAudioRecordings`
reads or writes: the recorded segment blobs (of an abstract blob type `α`)
and the DOM/instance state it mutates on success. -/
structure IMState (α : Type) where
  audioResponses : List α
  combinedAudioBlob : Option (List ℕ)
  recordedAudioSrcSet : Bool
  audioPlayerDisplay : String
  deriving DecidableEq

/-- Observable side effects the method triggers beyond its state update. -/
inductive Effect where
  | consoleError : String → Effect
  | alertShown : String → Effect
  | createObjectURL : Effect
  | fileWrite : Effect
  | networkCall : Effect
  deriving DecidableEq

/-- Outcome of the `async` method as seen by its caller: the promise either
resolves (with the returned blob, or with `undefined` = `none`) or rejects
with a thrown error. -/
inductive AsyncOutcome (β : Type) where
  | resolved : Option β → AsyncOutcome β
  | thrown : String → AsyncOutcome β
  deriving DecidableEq

/-- The sequential `for (const blob of this.audioResponses)` decode loop:
`await audioContext.decodeAudioData(...)` per blob, stopping at the first
blob the decoding facility rejects.  The facility itself is external and is
passed in as `decode`. -/
def decodeAll {α : Type} (decode : α → Option AudioBuffer) :
    List α → Option (List AudioBuffer)
  | [] => some []
  | b :: rest =>
    match decode b with
    | none => none
    | some buf =>
      match decodeAll decode rest with
      | none => none
      | some bufs => some (buf :: bufs)

/-- `Float32Array.prototype.set(src, off)` on the combined channel:
overwrite `dst[off ... off + src.length)` with `src`, or throw `RangeError`
(`none`) when the source does not fit. -/
def setAt (dst src : List ℚ) (off : ℕ) : Option (List ℚ) :=
  if off + src.length ≤ dst.length then
    some (dst.take off ++ (src ++ dst.drop (off + src.length)))
  else none

/-- The copy loop: `combinedBuffer.getChannelData(0).set(channelData, offset);
offset += buffer.length;` over the decoded buffers in order. -/
def copySegments (dst : List ℚ) : List AudioBuffer → ℕ → Option (List ℚ)
  | [], _ => some dst
  | buf :: rest, off =>
    match setAt dst buf.chan0 off with
    | none => none
    | some dst2 => copySegments dst2 rest (off + buf.length)

/-- Total decoded sample count, `sum(len(buf) for buf in decodedBuffers)`. -/
def sumLen (bufs : List AudioBuffer) : ℕ := (bufs.map AudioBuffer.length).sum

/-- The frame count the code allocates for the combined buffer:
`audioContext.createBuffer(1, audioContext.sampleRate * totalDuration, ...)`
with `totalDuration = audioBuffers.reduce((acc, b) => acc + b.duration, 0)`.
The WebIDL `unsigned long` conversion truncates the number toward zero and
reduces it modulo `2^32`.  JS double arithmetic is modelled as exact `ℚ`
arithmetic. -/
def combinedLength (sr : ℕ) (bufs : List AudioBuffer) : ℕ :=
  (jsTrunc ((sr : ℚ) * (bufs.map AudioBuffer.duration).sum)).toNat % 2 ^ 32

/-- `InterviewManager.combineAudioRecordings` (`part_001`; the page-script
`combineAudioAndFinish` of `part_002` is the same routine on globals).
Returns the new state, the UI effects in order, and the promise outcome.
The empty check logs and returns early; everything else sits in a
`try`/`catch` whose handler logs, alerts and falls through, so the promise
always resolves (`undefined` on any failure).  The `OfflineAudioContext`
rendering pass of the mono combined buffer into the mono destination is
modelled as the identity on the sample data.  On success the method stores
the blob in `this.combinedAudioBlob`, points `recordedAudio.src` at a fresh
object URL and unhides the audio player. -/
def combineAudioRecordings {α : Type} (sr : ℕ) (decode : α → Option AudioBuffer)
    (st : IMState α) : IMState α × List Effect × AsyncOutcome (List ℕ) :=
  if st.audioResponses.length = 0 then
    (st, [Effect.consoleError "No recordings to combine"], AsyncOutcome.resolved none)
  else
    match decodeAll decode st.audioResponses with
    | none =>
      (st, [Effect.consoleError "Error combining audio:",
            Effect.alertShown "Error combining audio recordings. Please try again."],
        AsyncOutcome.resolved none)
    | some audioBuffers =>
      match copySegments (List.replicate (combinedLength sr audioBuffers) 0)
          audioBuffers 0 with
      | none =>
        (st, [Effect.consoleError "Error combining audio:",
              Effect.alertShown "Error combining audio recordings. Please try again."],
          AsyncOutcome.resolved none)
      | some combinedData =>
        let rendered : AudioBuffer := ⟨[combinedData], sr⟩
        let wavBlob := bufferToWaveMethod rendered rendered.length
        ({ st with
            combinedAudioBlob := some wavBlob,
            recordedAudioSrcSet := true,
            audioPlayerDisplay := "block" },
          [Effect.createObjectURL], AsyncOutcome.resolved (some wavBlob))

/-! ## Structural lemmas about the encoders -/

/-- Closed form of the data loops: the interleaved frames for offsets
`off, off + 1, ..., off + k - 1`. -/
def frames (channels : List (List ℚ)) (off : ℕ) : ℕ → List ℕ
  | 0 => []
  | k + 1 => sampleFrame channels off ++ frames channels (off + 1) k

theorem int16LE_length (i : ℤ) : (int16LE i).length = 2 := rfl

theorem sampleFrame_length (channels : List (List ℚ)) (off : ℕ) :
    (sampleFrame channels off).length = 2 * channels.length := by
  induction channels with
  | nil => rfl
  | cons ch rest ih =>
    simp only [sampleFrame, List.map_cons, List.flatten_cons, List.length_append,
      List.length_cons] at *
    rw [int16LE_length, ih]
    ring

theorem frames_length (channels : List (List ℚ)) :
    ∀ (k off : ℕ), (frames channels off k).length = 2 * channels.length * k := by
  intro k
  induction k with
  | zero => intro off; rfl
  | succ k ih =>
    intro off
    simp only [frames, List.length_append, sampleFrame_length, ih]
    ring

theorem frames_nil (off k : ℕ) : frames [] off k = [] := by
  induction k generalizing off with
  | zero => rfl
  | succ k ih => simp [frames, sampleFrame, ih]

theorem writeData_eq_frames (channels : List (List ℚ)) :
    ∀ (k off : ℕ), writeData channels off (2 * channels.length * k) = frames channels off k := by
  intro k
  induction k with
  | zero =>
    intro off
    rw [writeData]
    simp [frames]
  | succ k ih =>
    intro off
    by_cases hch : channels = []
    · subst hch
      rw [writeData]
      simp [frames_nil]
    · have hn : 0 < channels.length := List.length_pos.mpr hch
      rw [writeData, dif_neg]
      · have harith : 2 * channels.length * (k + 1) - 2 * channels.length =
            2 * channels.length * k := by
          have : 2 * channels.length * (k + 1) = 2 * channels.length * k +
              2 * channels.length := by ring
          omega
        rw [harith, ih]
        rfl
      · push_neg
        constructor
        · have : 2 * channels.length * (k + 1) = 2 * channels.length * k +
              2 * channels.length := by ring
          omega
        · exact hch

theorem writeDataBreak_eq_frames (channels : List (List ℚ)) (hch : channels ≠ []) :
    ∀ (k off : ℕ), off + k = (channels.headD []).length →
      writeDataBreak channels off (2 * channels.length * k) = frames channels off k := by
  intro k
  induction k with
  | zero =>
    intro off _
    rw [writeDataBreak]
    simp [frames]
  | succ k ih =>
    intro off hoff
    have hn : 0 < channels.length := List.length_pos.mpr hch
    have hsplit : 2 * channels.length * (k + 1) = 2 * channels.length * k +
        2 * channels.length := by ring
    rw [writeDataBreak, dif_neg]
    · rcases Nat.eq_zero_or_pos k with hk | hk
      · subst hk
        have hbr : (channels.headD []).length ≤ off + 1 := by omega
        rw [if_pos hbr]
        simp [frames]
      · have hbr : ¬ (channels.headD []).length ≤ off + 1 := by omega
        rw [if_neg hbr]
        have harith : 2 * channels.length * (k + 1) - 2 * channels.length =
            2 * channels.length * k := by omega
        rw [harith, ih (off + 1) (by omega)]
        rfl
    · push_neg
      exact ⟨by omega, hch⟩

theorem writeDataBreak_length_le (channels : List (List ℚ)) :
    ∀ (k off : ℕ), (writeDataBreak channels off (2 * channels.length * k)).length ≤
      2 * channels.length * k := by
  intro k
  induction k with
  | zero =>
    intro off
    rw [writeDataBreak]
    simp
  | succ k ih =>
    intro off
    by_cases hch : channels = []
    · subst hch
      rw [writeDataBreak]
      simp
    · have hn : 0 < channels.length := List.length_pos.mpr hch
      have hsplit : 2 * channels.length * (k + 1) = 2 * channels.length * k +
          2 * channels.length := by ring
      rw [writeDataBreak, dif_neg]
      · rw [List.length_append, sampleFrame_length]
        by_cases hbr : (channels.headD []).length ≤ off + 1
        · rw [if_pos hbr]
          simp only [List.length_nil]
          omega
        · rw [if_neg hbr]
          have harith : 2 * channels.length * (k + 1) - 2 * channels.length =
              2 * channels.length * k := by omega
          rw [harith]
          have := ih (off + 1)
          omega
      · push_neg
        exact ⟨by omega, hch⟩

theorem wavHeader_length (numOfChan sampleRate length : ℕ) :
    (wavHeader numOfChan sampleRate length).length = 44 := rfl

/-- The standalone encoder fills its allocation exactly: header then the
`len` interleaved frames, no residual zero padding. -/
theorem bufferToWave_eq (b : AudioBuffer) (len : ℕ) :
    bufferToWave b len =
      wavHeader b.channels.length b.sampleRate (len * b.channels.length * 2 + 44) ++
        frames b.channels 0 len := by
  have hrem : len * b.channels.length * 2 + 44 - 44 = 2 * b.channels.length * len := by
    have : len * b.channels.length * 2 = 2 * b.channels.length * len := by ring
    omega
  have hw := writeData_eq_frames b.channels len 0
  simp only [bufferToWave, hrem, hw]
  rw [List.length_append, wavHeader_length, frames_length]
  have hz : len * b.channels.length * 2 + 44 - (44 + 2 * b.channels.length * len) = 0 := by
    have : len * b.channels.length * 2 = 2 * b.channels.length * len := by ring
    omega
  rw [hz]
  simp

theorem bufferToWave_length (b : AudioBuffer) (len : ℕ) :
    (bufferToWave b len).length = len * b.channels.length * 2 + 44 := by
  rw [bufferToWave_eq, List.length_append, wavHeader_length, frames_length]
  ring

theorem bufferToWaveMethod_length (b : AudioBuffer) (len : ℕ) :
    (bufferToWaveMethod b len).length = len * b.channels.length * 2 + 44 := by
  have hrem : len * b.channels.length * 2 + 44 - 44 = 2 * b.channels.length * len := by
    have : len * b.channels.length * 2 = 2 * b.channels.length * len := by ring
    omega
  have hle := writeDataBreak_length_le b.channels len 0
  simp only [bufferToWaveMethod, hrem]
  rw [List.length_append, List.length_replicate, List.length_append, wavHeader_length]
  have : len * b.channels.length * 2 = 2 * b.channels.length * len := by ring
  omega

/-- With `len` equal to the first channel sample count the break of the
method version never fires early, so both encoders emit the same bytes. -/
theorem bufferToWaveMethod_eq_bufferToWave (b : AudioBuffer) (len : ℕ)
    (hch : b.channels ≠ []) (hlen : len = b.chan0.length) :
    bufferToWaveMethod b len = bufferToWave b len := by
  have hrem : len * b.channels.length * 2 + 44 - 44 = 2 * b.channels.length * len := by
    have : len * b.channels.length * 2 = 2 * b.channels.length * len := by ring
    omega
  have hwd := writeData_eq_frames b.channels len 0
  have hwdb := writeDataBreak_eq_frames b.channels hch len 0 (by
    simpa [AudioBuffer.chan0] using hlen)
  simp only [bufferToWave, bufferToWaveMethod, hrem, hwd, hwdb]

/-! ## Reading the header fields back -/

theorem readUInt16LE_drop (bs : List ℕ) (off : ℕ) :
    readUInt16LE bs off = readUInt16LE (bs.drop off) 0 := by
  simp [readUInt16LE, List.getD_eq_getElem?_getD, List.getElem?_drop]

theorem readUInt32LE_drop (bs : List ℕ) (off : ℕ) :
    readUInt32LE bs off = readUInt32LE (bs.drop off) 0 := by
  simp [readUInt32LE, List.getD_eq_getElem?_getD, List.getElem?_drop]

theorem readUInt16LE_le16 (x : ℕ) (rest : List ℕ) :
    readUInt16LE (le16 x ++ rest) 0 = x % 65536 := by
  show x % 256 + 256 * (x / 256 % 256) = x % 65536
  omega

theorem readUInt32LE_le32 (x : ℕ) (rest : List ℕ) :
    readUInt32LE (le32 x ++ rest) 0 = x % 4294967296 := by
  show x % 256 + 256 * (x / 256 % 256) + 65536 * (x / 65536 % 256) +
    16777216 * (x / 16777216 % 256) = x % 4294967296
  omega

theorem header_riff (n sr L : ℕ) (rest : List ℕ) :
    ((wavHeader n sr L ++ rest).take 4) = [0x52, 0x49, 0x46, 0x46] := rfl

theorem header_chunkSize (n sr L : ℕ) (rest : List ℕ) :
    readUInt32LE (wavHeader n sr L ++ rest) 4 = (L - 8) % 4294967296 := by
  rw [readUInt32LE_drop]
  have h : (wavHeader n sr L ++ rest).drop 4 = le32 (L - 8) ++ (le32 0x45564157 ++
      (le32 0x20746d66 ++ (le32 16 ++ (le16 1 ++ (le16 n ++ (le32 sr ++
      (le32 (sr * 2 * n) ++ (le16 (n * 2) ++ (le16 16 ++ (le32 0x61746164 ++
      (le32 (L - 44) ++ rest))))))))))) := rfl
  rw [h, readUInt32LE_le32]

theorem header_wave (n sr L : ℕ) (rest : List ℕ) :
    (((wavHeader n sr L ++ rest).drop 8).take 4) = [0x57, 0x41, 0x56, 0x45] := rfl

theorem header_fmt (n sr L : ℕ) (rest : List ℕ) :
    (((wavHeader n sr L ++ rest).drop 12).take 4) = [0x66, 0x6d, 0x74, 0x20] := rfl

theorem header_subchunk1Size (n sr L : ℕ) (rest : List ℕ) :
    readUInt32LE (wavHeader n sr L ++ rest) 16 = 16 := by
  rw [readUInt32LE_drop]
  have h : (wavHeader n sr L ++ rest).drop 16 = le32 16 ++ (le16 1 ++ (le16 n ++
      (le32 sr ++ (le32 (sr * 2 * n) ++ (le16 (n * 2) ++ (le16 16 ++
      (le32 0x61746164 ++ (le32 (L - 44) ++ rest)))))))) := rfl
  rw [h, readUInt32LE_le32]

theorem header_audioFormat (n sr L : ℕ) (rest : List ℕ) :
    readUInt16LE (wavHeader n sr L ++ rest) 20 = 1 := by
  rw [readUInt16LE_drop]
  have h : (wavHeader n sr L ++ rest).drop 20 = le16 1 ++ (le16 n ++
      (le32 sr ++ (le32 (sr * 2 * n) ++ (le16 (n * 2) ++ (le16 16 ++
      (le32 0x61746164 ++ (le32 (L - 44) ++ rest))))))) := rfl
  rw [h, readUInt16LE_le16]

theorem header_numChannels (n sr L : ℕ) (rest : List ℕ) :
    readUInt16LE (wavHeader n sr L ++ rest) 22 = n % 65536 := by
  rw [readUInt16LE_drop]
  have h : (wavHeader n sr L ++ rest).drop 22 = le16 n ++
      (le32 sr ++ (le32 (sr * 2 * n) ++ (le16 (n * 2) ++ (le16 16 ++
      (le32 0x61746164 ++ (le32 (L - 44) ++ rest)))))) := rfl
  rw [h, readUInt16LE_le16]

theorem header_sampleRate (n sr L : ℕ) (rest : List ℕ) :
    readUInt32LE (wavHeader n sr L ++ rest) 24 = sr % 4294967296 := by
  rw [readUInt32LE_drop]
  have h : (wavHeader n sr L ++ rest).drop 24 =
      le32 sr ++ (le32 (sr * 2 * n) ++ (le16 (n * 2) ++ (le16 16 ++
      (le32 0x61746164 ++ (le32 (L - 44) ++ rest))))) := rfl
  rw [h, readUInt32LE_le32]

theorem header_byteRate (n sr L : ℕ) (rest : List ℕ) :
    readUInt32LE (wavHeader n sr L ++ rest) 28 = (sr * 2 * n) % 4294967296 := by
  rw [readUInt32LE_drop]
  have h : (wavHeader n sr L ++ rest).drop 28 =
      le32 (sr * 2 * n) ++ (le16 (n * 2) ++ (le16 16 ++
      (le32 0x61746164 ++ (le32 (L - 44) ++ rest)))) := rfl
  rw [h, readUInt32LE_le32]

theorem header_blockAlign (n sr L : ℕ) (rest : List ℕ) :
    readUInt16LE (wavHeader n sr L ++ rest) 32 = (n * 2) % 65536 := by
  rw [readUInt16LE_drop]
  have h : (wavHeader n sr L ++ rest).drop 32 =
      le16 (n * 2) ++ (le16 16 ++ (le32 0x61746164 ++ (le32 (L - 44) ++ rest))) := rfl
  rw [h, readUInt16LE_le16]

theorem header_bitsPerSample (n sr L : ℕ) (rest : List ℕ) :
    readUInt16LE (wavHeader n sr L ++ rest) 34 = 16 := by
  rw [readUInt16LE_drop]
  have h : (wavHeader n sr L ++ rest).drop 34 =
      le16 16 ++ (le32 0x61746164 ++ (le32 (L - 44) ++ rest)) := rfl
  rw [h, readUInt16LE_le16]

theorem header_dataId (n sr L : ℕ) (rest : List ℕ) :
    (((wavHeader n sr L ++ rest).drop 36).take 4) = [0x64, 0x61, 0x74, 0x61] := rfl

theorem header_subchunk2Size (n sr L : ℕ) (rest : List ℕ) :
    readUInt32LE (wavHeader n sr L ++ rest) 40 = (L - 44) % 4294967296 := by
  rw [readUInt32LE_drop]
  have h : (wavHeader n sr L ++ rest).drop 40 = le32 (L - 44) ++ rest := rfl
  rw [h, readUInt32LE_le32]

/-! ## Lemmas about the combine pipeline -/

theorem AudioBuffer.length_eq_chan0 (b : AudioBuffer) : b.length = b.chan0.length := rfl

theorem sumLen_cons (b : AudioBuffer) (rest : List AudioBuffer) :
    sumLen (b :: rest) = b.length + sumLen rest := by
  simp [sumLen]

/-- When the destination has exactly the room the segments need from
`off` on, the copy loop succeeds and fills it with the concatenated
channel data. -/
theorem copySegments_exact :
    ∀ (bufs : List AudioBuffer) (dst : List ℚ) (off : ℕ),
      dst.length = off + sumLen bufs →
      copySegments dst bufs off = some (dst.take off ++ (bufs.map AudioBuffer.chan0).flatten) := by
  intro bufs
  induction bufs with
  | nil =>
    intro dst off hlen
    have : dst.take off = dst := List.take_of_length_le (by simp [sumLen] at hlen; omega)
    simp [copySegments, this]
  | cons buf rest ih =>
    intro dst off hlen
    rw [sumLen_cons, AudioBuffer.length_eq_chan0] at hlen
    have hfit : off + buf.chan0.length ≤ dst.length := by omega
    have hsetAt : setAt dst buf.chan0 off =
        some (dst.take off ++ (buf.chan0 ++ dst.drop (off + buf.chan0.length))) := by
      rw [setAt, if_pos hfit]
    have htakelen : (dst.take off).length = off := by
      rw [List.length_take]; omega
    have hlen2 : (dst.take off ++ (buf.chan0 ++ dst.drop (off + buf.chan0.length))).length =
        dst.length := by
      simp [List.length_append, List.length_take, List.length_drop]
      omega
    have hrec := ih (dst.take off ++ (buf.chan0 ++ dst.drop (off + buf.chan0.length)))
      (off + buf.length) (by rw [hlen2, AudioBuffer.length_eq_chan0]; omega)
    have htake : (dst.take off ++ (buf.chan0 ++ dst.drop (off + buf.chan0.length))).take
        (off + buf.length) = dst.take off ++ buf.chan0 := by
      rw [AudioBuffer.length_eq_chan0]
      calc (dst.take off ++ (buf.chan0 ++ dst.drop (off + buf.chan0.length))).take
            (off + buf.chan0.length)
          = (dst.take off ++ (buf.chan0 ++ dst.drop (off + buf.chan0.length))).take
            ((dst.take off).length + buf.chan0.length) := by rw [htakelen]
        _ = dst.take off ++ (buf.chan0 ++ dst.drop (off + buf.chan0.length)).take
            (buf.chan0.length) := List.take_append _
        _ = dst.take off ++ (buf.chan0 ++ dst.drop (off + buf.chan0.length)).take
            (buf.chan0.length + 0) := by rw [Nat.add_zero]
        _ = dst.take off ++ (buf.chan0 ++ (dst.drop (off + buf.chan0.length)).take 0) := by
            rw [List.take_append]
        _ = dst.take off ++ buf.chan0 := by simp
    rw [copySegments, hsetAt]
    show copySegments _ rest (off + buf.length) = _
    rw [hrec, htake]
    simp

/-- When the destination is too short for the segments, some copy throws
`RangeError` and the loop fails. -/
theorem copySegments_overflow :
    ∀ (bufs : List AudioBuffer) (dst : List ℚ) (off : ℕ),
      bufs ≠ [] → dst.length < off + sumLen bufs →
      copySegments dst bufs off = none := by
  intro bufs
  induction bufs with
  | nil => intro _ _ h; exact absurd rfl h
  | cons buf rest ih =>
    intro dst off _ hshort
    rw [sumLen_cons, AudioBuffer.length_eq_chan0] at hshort
    by_cases hfit : off + buf.chan0.length ≤ dst.length
    · have hsetAt : setAt dst buf.chan0 off =
          some (dst.take off ++ (buf.chan0 ++ dst.drop (off + buf.chan0.length))) := by
        rw [setAt, if_pos hfit]
      have hlen2 : (dst.take off ++ (buf.chan0 ++ dst.drop (off + buf.chan0.length))).length =
          dst.length := by
        simp [List.length_append, List.length_take, List.length_drop]
        omega
      have hrest : rest ≠ [] := by
        intro hnil
        rw [hnil] at hshort
        simp [sumLen] at hshort
        omega
      rw [copySegments, hsetAt]
      show copySegments _ rest (off + buf.length) = none
      exact ih _ (off + buf.length) hrest
        (by rw [hlen2, AudioBuffer.length_eq_chan0]; omega)
    · have hsetAt : setAt dst buf.chan0 off = none := by
        rw [setAt, if_neg hfit]
      rw [copySegments, hsetAt]

/-- Under exact rational arithmetic the duration round trip cancels:
summing `len_i / sr` and multiplying by `sr` recovers the total sample
count, so the allocated frame count is exactly the sum of the decoded
buffer lengths (the JS double computation can round this to a non-integer;
see the development notes on the failing input). -/
theorem combinedLength_eq (sr : ℕ) (bufs : List AudioBuffer) (hsr : 0 < sr)
    (hrate : ∀ b ∈ bufs, b.sampleRate = sr) (hlt : sumLen bufs < 4294967296) :
    combinedLength sr bufs = sumLen bufs := by
  have hsrq : (sr : ℚ) ≠ 0 := by
    exact_mod_cast Nat.pos_iff_ne_zero.mp hsr
  have hsum : ∀ (l : List AudioBuffer), (∀ b ∈ l, b.sampleRate = sr) →
      (l.map AudioBuffer.duration).sum = (sumLen l : ℚ) / (sr : ℚ) := by
    intro l
    induction l with
    | nil => intro _; simp [sumLen]
    | cons b rest ih =>
      intro hl
      have hb : b.sampleRate = sr := hl b (by simp)
      have hrest := ih (fun x hx => hl x (by simp [hx]))
      rw [List.map_cons, List.sum_cons, hrest, AudioBuffer.duration, hb, sumLen_cons]
      rw [div_add_div_same]
      push_cast
      ring_nf
  rw [combinedLength, hsum bufs hrate]
  rw [mul_div_assoc']
  rw [mul_div_cancel_left₀ _ hsrq]
  rw [jsTrunc, if_pos (by positivity)]
  rw [Int.floor_natCast, Int.toNat_natCast]
  have : (2 : ℕ) ^ 32 = 4294967296 := by norm_num
  rw [this]
  exact Nat.mod_eq_of_lt hlt

/-- The empty-input early return: log to the console and resolve with
`undefined`, leaving the state untouched. -/
theorem combine_empty {α : Type} (sr : ℕ) (decode : α → Option AudioBuffer)
    (st : IMState α) (h : st.audioResponses = []) :
    combineAudioRecordings sr decode st =
      (st, [Effect.consoleError "No recordings to combine"], AsyncOutcome.resolved none) := by
  rw [combineAudioRecordings, if_pos (by rw [h]; rfl)]

/-- A decode failure lands in the `catch` handler: log, alert, resolve
with `undefined`, state untouched. -/
theorem combine_decodeFail {α : Type} (sr : ℕ) (decode : α → Option AudioBuffer)
    (st : IMState α) (hne : st.audioResponses ≠ [])
    (hdec : decodeAll decode st.audioResponses = none) :
    combineAudioRecordings sr decode st =
      (st, [Effect.consoleError "Error combining audio:",
            Effect.alertShown "Error combining audio recordings. Please try again."],
        AsyncOutcome.resolved none) := by
  rw [combineAudioRecordings, if_neg (by simpa [List.length_eq_zero] using hne), hdec]

/-- The success path: decode all, copy all, encode, store and resolve the
blob. -/
theorem combine_success {α : Type} (sr : ℕ) (decode : α → Option AudioBuffer)
    (st : IMState α) (bufs : List AudioBuffer) (data : List ℚ)
    (hne : st.audioResponses ≠ [])
    (hdec : decodeAll decode st.audioResponses = some bufs)
    (hcopy : copySegments (List.replicate (combinedLength sr bufs) 0) bufs 0 = some data) :
    combineAudioRecordings sr decode st =
      ({ st with
          combinedAudioBlob := some (bufferToWaveMethod ⟨[data], sr⟩ data.length),
          recordedAudioSrcSet := true,
          audioPlayerDisplay := "block" },
        [Effect.createObjectURL],
        AsyncOutcome.resolved (some (bufferToWaveMethod ⟨[data], sr⟩ data.length))) := by
  simp only [combineAudioRecordings, hdec, hcopy, AudioBuffer.length, AudioBuffer.chan0,
    List.headD]
  rw [if_neg (by simpa [List.length_eq_zero] using hne)]

/-- The combined buffer is mono, so the method encoder in the pipeline
coincides with the standalone one. -/
theorem bufferToWaveMethod_mono (data : List ℚ) (sr : ℕ) :
    bufferToWaveMethod ⟨[data], sr⟩ data.length = bufferToWave ⟨[data], sr⟩ data.length :=
  bufferToWaveMethod_eq_bufferToWave _ _ (by simp) rfl

/-- Slicing a concatenation at the cumulative length boundaries recovers
each piece. -/
theorem flatten_slice :
    ∀ (ls : List (List ℚ)) (k : ℕ) (hk : k < ls.length),
      ((ls.flatten.drop (((ls.take k).map List.length).sum)).take
        (ls.get ⟨k, hk⟩).length) = ls.get ⟨k, hk⟩ := by
  intro ls
  induction ls with
  | nil => intro k hk; simp at hk
  | cons l0 rest ih =>
    intro k hk
    match k with
    | 0 =>
      simp only [List.take_zero, List.map_nil, List.sum_nil, List.drop_zero,
        List.flatten_cons, List.get]
      exact List.take_left l0 rest.flatten
    | k + 1 =>
      have hk' : k < rest.length := by simpa using hk
      simp only [List.take_succ_cons, List.map_cons, List.sum_cons, List.flatten_cons,
        List.get]
      rw [List.drop_append]
      exact ih k hk'

/-- Slicing the concatenated channel data at the cumulative segment-length
boundaries recovers each segment. -/
theorem segments_slice :
    ∀ (bufs : List AudioBuffer) (k : ℕ) (hk : k < bufs.length),
      (((bufs.map AudioBuffer.chan0).flatten.drop (sumLen (bufs.take k))).take
        (bufs.get ⟨k, hk⟩).length) = (bufs.get ⟨k, hk⟩).chan0 := by
  intro bufs
  induction bufs with
  | nil => intro k hk; simp at hk
  | cons b0 rest ih =>
    intro k hk
    match k with
    | 0 =>
      simp only [List.take_zero, List.map_cons, List.flatten_cons, List.get,
        sumLen, List.map_nil, List.sum_nil, List.drop_zero, AudioBuffer.length_eq_chan0]
      exact List.take_left b0.chan0 (rest.map AudioBuffer.chan0).flatten
    | k + 1 =>
      have hk' : k < rest.length := by simpa using hk
      simp only [List.take_succ_cons, List.map_cons, List.flatten_cons, List.get,
        sumLen_cons, AudioBuffer.length_eq_chan0]
      rw [List.drop_append]
      exact ih k hk'

/-- Combining two 1-second mono 44100 Hz segments: the pipeline decodes
both, allocates `88200` frames, concatenates, and stores the standalone
encoding of the 88200-sample mono buffer. -/
theorem twoSecond_pipeline :
    combineAudioRecordings 44100 (fun _ : ℕ => some ⟨[List.replicate 44100 0], 44100⟩)
        ⟨[0, 1], none, false, "none"⟩ =
      (⟨[0, 1], some (bufferToWave ⟨[List.replicate 88200 0], 44100⟩ 88200), true, "block"⟩,
        [Effect.createObjectURL],
        AsyncOutcome.resolved (some (bufferToWave ⟨[List.replicate 88200 0], 44100⟩ 88200))) := by
  have hsum : sumLen [(⟨[List.replicate 44100 0], 44100⟩ : AudioBuffer),
      ⟨[List.replicate 44100 0], 44100⟩] = 88200 := by
    simp only [sumLen, AudioBuffer.length, AudioBuffer.chan0, List.map_cons, List.map_nil,
      List.sum_cons, List.sum_nil, List.headD_cons, List.length_replicate]
    omega
  have hcl : combinedLength 44100 [(⟨[List.replicate 44100 0], 44100⟩ : AudioBuffer),
      ⟨[List.replicate 44100 0], 44100⟩] = 88200 := by
    rw [combinedLength_eq 44100 _ (by norm_num)
      (by
        intro b hb
        simp only [List.mem_cons, List.not_mem_nil, or_false] at hb
        rcases hb with h | h <;> rw [h])
      (by rw [hsum]; norm_num), hsum]
  have hdec : decodeAll (fun _ : ℕ => some (⟨[List.replicate 44100 0], 44100⟩ : AudioBuffer))
      [0, 1] = some [⟨[List.replicate 44100 0], 44100⟩, ⟨[List.replicate 44100 0], 44100⟩] := rfl
  have hfit : (List.replicate 88200 (0 : ℚ)).length =
      0 + sumLen [(⟨[List.replicate 44100 0], 44100⟩ : AudioBuffer),
        ⟨[List.replicate 44100 0], 44100⟩] := by
    rw [List.length_replicate, hsum]
  have h1 : (List.map AudioBuffer.chan0 [(⟨[List.replicate 44100 0], 44100⟩ : AudioBuffer),
        ⟨[List.replicate 44100 0], 44100⟩]).flatten =
      List.replicate 44100 (0 : ℚ) ++ List.replicate 44100 (0 : ℚ) := by
    simp only [AudioBuffer.chan0, List.map_cons, List.map_nil, List.headD_cons,
      List.flatten_cons, List.flatten_nil, List.append_nil]
  have h2 : List.replicate 44100 (0 : ℚ) ++ List.replicate 44100 (0 : ℚ) =
      List.replicate 88200 (0 : ℚ) := by
    rw [show (88200 : ℕ) = 44100 + 44100 by norm_num, List.replicate_add]
  have hdata : List.take 0 (List.replicate 88200 (0 : ℚ)) ++
      (List.map AudioBuffer.chan0 [(⟨[List.replicate 44100 0], 44100⟩ : AudioBuffer),
        ⟨[List.replicate 44100 0], 44100⟩]).flatten = List.replicate 88200 (0 : ℚ) := by
    rw [List.take_zero, List.nil_append, h1, h2]
  have hcopy : copySegments (List.replicate 88200 (0 : ℚ))
      [(⟨[List.replicate 44100 0], 44100⟩ : AudioBuffer), ⟨[List.replicate 44100 0], 44100⟩] 0 =
      some (List.replicate 88200 (0 : ℚ)) := by
    conv_lhs => rw [copySegments_exact _ _ 0 hfit, hdata]
  have hcopy2 : copySegments (List.replicate (combinedLength 44100
      [(⟨[List.replicate 44100 0], 44100⟩ : AudioBuffer), ⟨[List.replicate 44100 0], 44100⟩]) 0)
      [(⟨[List.replicate 44100 0], 44100⟩ : AudioBuffer), ⟨[List.replicate 44100 0], 44100⟩] 0 =
      some (List.replicate 88200 (0 : ℚ)) := by
    conv_lhs => rw [hcl]
    exact hcopy
  have h := combine_success 44100
    (fun _ : ℕ => some (⟨[List.replicate 44100 0], 44100⟩ : AudioBuffer))
    (⟨[0, 1], none, false, "none"⟩ : IMState ℕ) _ _ (by simp) hdec hcopy2
  conv_lhs => rw [h, bufferToWaveMethod_mono, List.length_replicate]

/-! ## Claim C1: WAV header layout -/

/-- Length of the blob produced by the two-segment pipeline: 176444 bytes
(`44 + 88200 * 2`), not the 352844 the spec example computes. -/
theorem twoSecond_blob_length :
    Option.map List.length (combineAudioRecordings 44100
      (fun _ : ℕ => some ⟨[List.replicate 44100 0], 44100⟩)
      ⟨[0, 1], none, false, "none"⟩).1.combinedAudioBlob = some 176444 := by
  conv_lhs => rw [twoSecond_pipeline]
  show some (bufferToWave ⟨[List.replicate 88200 0], 44100⟩ 88200).length = some 176444
  rw [bufferToWave_length]
  show some ((88200 : ℕ) * 1 * 2 + 44) = some 176444
  norm_num

/-- The standalone mono encoder is header plus frames. -/
theorem bufferToWave_mono_eq (ch : List ℚ) (sr len : ℕ) :
    bufferToWave ⟨[ch], sr⟩ len = wavHeader 1 sr (len * 2 + 44) ++ frames [ch] 0 len := by
  have h := bufferToWave_eq ⟨[ch], sr⟩ len
  simpa using h

/-- C1 (amended): for every combined (mono) sample buffer the WAV byte
stream has the canonical layout — "RIFF", ChunkSize = fileLength - 8,
"WAVE", "fmt ", Subchunk1Size 16, AudioFormat 1, NumChannels 1,
SampleRate, ByteRate = SampleRate * NumChannels * 2, BlockAlign =
NumChannels * 2, BitsPerSample 16, "data", Subchunk2Size =
totalSampleCount * NumChannels * 2, all little-endian, total length =
44 + Subchunk2Size; combining two 1-second mono 44100 Hz segments yields
exactly 176444 bytes (not 352844) with Subchunk2Size 176400. -/
theorem c1_wav_header_layout (ch : List ℚ) (sr : ℕ)
    (hsr : sr * 2 < 4294967296) (hL : ch.length * 2 + 44 < 4294967296) :
    ((bufferToWave ⟨[ch], sr⟩ ch.length).take 4 = [0x52, 0x49, 0x46, 0x46]) ∧
    readUInt32LE (bufferToWave ⟨[ch], sr⟩ ch.length) 4 =
      (bufferToWave ⟨[ch], sr⟩ ch.length).length - 8 ∧
    ((bufferToWave ⟨[ch], sr⟩ ch.length).drop 8).take 4 = [0x57, 0x41, 0x56, 0x45] ∧
    ((bufferToWave ⟨[ch], sr⟩ ch.length).drop 12).take 4 = [0x66, 0x6d, 0x74, 0x20] ∧
    readUInt32LE (bufferToWave ⟨[ch], sr⟩ ch.length) 16 = 16 ∧
    readUInt16LE (bufferToWave ⟨[ch], sr⟩ ch.length) 20 = 1 ∧
    readUInt16LE (bufferToWave ⟨[ch], sr⟩ ch.length) 22 = 1 ∧
    readUInt32LE (bufferToWave ⟨[ch], sr⟩ ch.length) 24 = sr ∧
    readUInt32LE (bufferToWave ⟨[ch], sr⟩ ch.length) 28 = sr * 1 * 2 ∧
    readUInt16LE (bufferToWave ⟨[ch], sr⟩ ch.length) 32 = 1 * 2 ∧
    readUInt16LE (bufferToWave ⟨[ch], sr⟩ ch.length) 34 = 16 ∧
    ((bufferToWave ⟨[ch], sr⟩ ch.length).drop 36).take 4 = [0x64, 0x61, 0x74, 0x61] ∧
    readUInt32LE (bufferToWave ⟨[ch], sr⟩ ch.length) 40 = ch.length * 1 * 2 ∧
    (bufferToWave ⟨[ch], sr⟩ ch.length).length = 44 + ch.length * 1 * 2 ∧
    Option.map List.length (combineAudioRecordings 44100
      (fun _ : ℕ => some ⟨[List.replicate 44100 0], 44100⟩)
      ⟨[0, 1], none, false, "none"⟩).1.combinedAudioBlob = some 176444 := by
  have heq := bufferToWave_mono_eq ch sr ch.length
  have hlen : (bufferToWave ⟨[ch], sr⟩ ch.length).length = ch.length * 2 + 44 := by
    rw [bufferToWave_length]
    show ch.length * 1 * 2 + 44 = ch.length * 2 + 44
    omega
  refine ⟨?_, ?_, ?_, ?_, ?_, ?_, ?_, ?_, ?_, ?_, ?_, ?_, ?_, ?_, twoSecond_blob_length⟩
  · rw [heq]; exact header_riff 1 sr _ _
  · rw [hlen, heq, header_chunkSize]; omega
  · rw [heq]; exact header_wave 1 sr _ _
  · rw [heq]; exact header_fmt 1 sr _ _
  · rw [heq]; exact header_subchunk1Size 1 sr _ _
  · rw [heq]; exact header_audioFormat 1 sr _ _
  · rw [heq, header_numChannels]
  · rw [heq, header_sampleRate]; omega
  · rw [heq, header_byteRate]; omega
  · rw [heq, header_blockAlign]
  · rw [heq]; exact header_bitsPerSample 1 sr _ _
  · rw [heq]; exact header_dataId 1 sr _ _
  · rw [heq, header_subchunk2Size]; omega
  · rw [hlen]; omega

/-- C1 witness: the layout theorem applied to an empty mono buffer at
8000 Hz. -/
theorem c1_wav_header_layout_witness :
    8000 * 2 < 4294967296 ∧
    (bufferToWave ⟨[([] : List ℚ)], 8000⟩ 0).take 4 = [0x52, 0x49, 0x46, 0x46] :=
  ⟨by decide, (c1_wav_header_layout [] 8000 (by decide) (by decide)).1⟩

/-- C1 counterexample: the concrete example of the claim is off by a
factor of two — two 1-second mono 44100 Hz segments produce a 176444-byte
file, not 352844 bytes. -/
theorem c1_example_size_counterexample :
    Option.map List.length (combineAudioRecordings 44100
      (fun _ : ℕ => some ⟨[List.replicate 44100 0], 44100⟩)
      ⟨[0, 1], none, false, "none"⟩).1.combinedAudioBlob = some 176444 ∧
    (176444 : ℕ) ≠ 352844 :=
  ⟨twoSecond_blob_length, by norm_num⟩

/-! ## Claim C2: sample scaling -/

/-- Modelled from the spec: the conversion the specification describes,
`round(s * 32768)` for `s < 0` and `round(s * 32767)` for `s >= 0`.
(The code instead branches at `-0.5` and truncates toward zero.) -/
def specSampleToInt16 (s : ℚ) : ℤ :=
  if s < 0 then round (s * 32768) else round (s * 32767)

theorem clampSample_le_one (s : ℚ) : clampSample s ≤ 1 := by
  rw [clampSample]
  exact max_le (by norm_num) (min_le_left _ _)

theorem neg_one_le_clampSample (s : ℚ) : -1 ≤ clampSample s := le_max_left _ _

theorem clampSample_idem (s : ℚ) : clampSample (clampSample s) = clampSample s := by
  have h1 := clampSample_le_one s
  have h2 := neg_one_le_clampSample s
  rw [clampSample, min_eq_right h1, max_eq_right h2]

/-- C2 (amended): out-of-range samples are first clamped to `[-1, 1]`;
for a clamped sample `s` the written 16-bit value is the
truncation-toward-zero of `s * 32768` when `s < -0.5` and of `s * 32767`
otherwise (not `round(s * 32768)` for `s < 0` / `round(s * 32767)` for
`s ≥ 0`). -/
theorem c2_sample_scaling :
    ∀ s : ℚ,
      (encodeSample (some s) = encodeSample (some (clampSample s))) ∧
      (-1 ≤ s → s ≤ 1 → encodeSample (some s) =
        if s < -(1 / 2 : ℚ) then jsTrunc (s * 32768) else jsTrunc (s * 32767)) := by
  intro s
  constructor
  · show scaleSample (clampSample s) = scaleSample (clampSample (clampSample s))
    exact congrArg scaleSample (clampSample_idem s).symm
  · intro h1 h2
    have hcl : clampSample s = s := by
      rw [clampSample, min_eq_right h2, max_eq_right h1]
    show scaleSample (clampSample s) = _
    rw [hcl, scaleSample]
    by_cases hc : s < -(1 / 2 : ℚ)
    · rw [if_pos (show (1 / 2 : ℚ) + s < 0 by linarith), if_pos hc]
    · rw [if_neg (show ¬((1 / 2 : ℚ) + s < 0) by push_neg at hc ⊢; linarith), if_neg hc]

/-- C2 witness: the amended scaling theorem applied at `s = -3/4`. -/
theorem c2_sample_scaling_witness :
    -1 ≤ -(3 / 4 : ℚ) ∧
    encodeSample (some (-(3 / 4 : ℚ))) = jsTrunc (-(3 / 4 : ℚ) * 32768) :=
  ⟨by norm_num, ((c2_sample_scaling (-(3 / 4 : ℚ))).2 (by norm_num) (by norm_num)).trans
    (if_pos (by norm_num))⟩

/-- C2 counterexample: at `s = -1/4` the code writes `-8191`
(truncate toward zero of `-1/4 * 32767`), while the claimed formula
`round(s * 32768)` for `s < 0` gives `-8192`. -/
theorem c2_round_counterexample :
    encodeSample (some (-(1 / 4 : ℚ))) = -8191 ∧
    specSampleToInt16 (-(1 / 4 : ℚ)) = -8192 := by
  constructor
  · simp only [encodeSample, clampSample, scaleSample, jsTrunc, min_def, max_def]
    norm_num
  · simp only [specSampleToInt16]
    norm_num [round_eq]

/-! ## Claim C3: order-preserving concatenation -/

/-- C3: for a non-empty list of decoded buffers, the copy loop writes each
segment at the next free offset, producing exactly the concatenation of
the segments, and slicing the combined data at the cumulative
segment-length boundaries reproduces every segment sample-for-sample. -/
theorem c3_concat_order (bufs : List AudioBuffer) (_hne : bufs ≠ []) :
    copySegments (List.replicate (sumLen bufs) 0) bufs 0 =
      some ((bufs.map AudioBuffer.chan0).flatten) ∧
    ∀ (k : ℕ) (hk : k < bufs.length),
      (((bufs.map AudioBuffer.chan0).flatten.drop (sumLen (bufs.take k))).take
        (bufs.get ⟨k, hk⟩).length) = (bufs.get ⟨k, hk⟩).chan0 := by
  constructor
  · have h := copySegments_exact bufs (List.replicate (sumLen bufs) 0) 0
      (by rw [List.length_replicate]; omega)
    rw [List.take_zero, List.nil_append] at h
    exact h
  · exact segments_slice bufs

/-- C3 witness: two segments `[1]` and `[2, 3]`; the combined buffer is
`[1, 2, 3]` and the slice at boundary 1 of length 2 is `[2, 3]`. -/
theorem c3_concat_order_witness :
    copySegments (List.replicate 3 (0 : ℚ)) [⟨[[1]], 1⟩, ⟨[[2, 3]], 1⟩] 0 =
      some [(1 : ℚ), 2, 3] ∧
    ((([(⟨[[1]], 1⟩ : AudioBuffer), ⟨[[2, 3]], 1⟩].map
      AudioBuffer.chan0).flatten.drop 1).take 2) = [(2 : ℚ), 3] :=
  ⟨(c3_concat_order [⟨[[1]], 1⟩, ⟨[[2, 3]], 1⟩] (by simp)).1,
    (c3_concat_order [⟨[[1]], 1⟩, ⟨[[2, 3]], 1⟩] (by simp)).2 1 (by simp)⟩

/-! ## Claim C4: allocated size of the combined buffer -/

/-- C4: under exact arithmetic the allocated frame count equals the sum of
the decoded buffer lengths; but with the allocation one frame short — as
the JS double rounding produces on the failing input of six segments of
lengths 19332, 179303, 86560, 123770, 146752, 26399 at 44100 Hz, where
`44100 * Σ(len/44100)` evaluates to `582115.9999999999` and truncates to
`582115` instead of `582116` — the copy loop fails with a `RangeError`. -/
theorem c4_total_alloc :
    (∀ (sr : ℕ) (bufs : List AudioBuffer), 0 < sr → (∀ b ∈ bufs, b.sampleRate = sr) →
      sumLen bufs < 4294967296 → combinedLength sr bufs = sumLen bufs) ∧
    copySegments (List.replicate 582115 (0 : ℚ))
      [⟨[List.replicate 19332 0], 44100⟩, ⟨[List.replicate 179303 0], 44100⟩,
        ⟨[List.replicate 86560 0], 44100⟩, ⟨[List.replicate 123770 0], 44100⟩,
        ⟨[List.replicate 146752 0], 44100⟩, ⟨[List.replicate 26399 0], 44100⟩] 0 = none := by
  constructor
  · intro sr bufs h1 h2 h3
    exact combinedLength_eq sr bufs h1 h2 h3
  · apply copySegments_overflow
    · exact List.cons_ne_nil _ _
    · have hs : sumLen [(⟨[List.replicate 19332 0], 44100⟩ : AudioBuffer),
          ⟨[List.replicate 179303 0], 44100⟩, ⟨[List.replicate 86560 0], 44100⟩,
          ⟨[List.replicate 123770 0], 44100⟩, ⟨[List.replicate 146752 0], 44100⟩,
          ⟨[List.replicate 26399 0], 44100⟩] = 582116 := by
        simp only [sumLen, AudioBuffer.length, AudioBuffer.chan0, List.map_cons,
          List.map_nil, List.sum_cons, List.sum_nil, List.headD_cons, List.length_replicate]
        omega
      have hlen := List.length_replicate 582115 (0 : ℚ)
      omega

/-- C4 witness: the exact-arithmetic identity applied to one decoded
buffer of a single sample at 1 Hz. -/
theorem c4_total_alloc_witness :
    0 < 1 ∧ combinedLength 1 [(⟨[[0]], 1⟩ : AudioBuffer)] = 1 :=
  ⟨by decide, by
    have h := c4_total_alloc.1 1 [(⟨[[0]], 1⟩ : AudioBuffer)] (by decide)
      (by intro b hb; simp only [List.mem_singleton] at hb; rw [hb])
      (by decide)
    exact h⟩

/-! ## Claim C5: empty input -/

/-- C5 (amended): on an empty segment list the method logs
"No recordings to combine" and returns early, resolving with `undefined`;
no WAV blob is produced and the state is unchanged — no `EmptyInputError`
(or any error) reaches the caller. -/
theorem c5_empty_input {α : Type} (sr : ℕ) (decode : α → Option AudioBuffer)
    (st : IMState α) (h : st.audioResponses = []) :
    combineAudioRecordings sr decode st =
      (st, [Effect.consoleError "No recordings to combine"], AsyncOutcome.resolved none) :=
  combine_empty sr decode st h

/-- C5 witness: the empty-input theorem at a concrete empty state. -/
theorem c5_empty_input_witness :
    combineAudioRecordings 1 (fun _ : ℕ => none) ⟨[], none, false, "none"⟩ =
      ((⟨[], none, false, "none"⟩ : IMState ℕ),
        [Effect.consoleError "No recordings to combine"], AsyncOutcome.resolved none) :=
  c5_empty_input 1 (fun _ : ℕ => none) ⟨[], none, false, "none"⟩ rfl

/-- C5 counterexample: on empty input the promise resolves with
`undefined` — no `EmptyInputError` is thrown — and no blob is stored. -/
theorem c5_empty_counterexample :
    (combineAudioRecordings 44100 (fun _ : ℕ => none)
      (⟨[], none, false, "none"⟩ : IMState ℕ)).2.2 = AsyncOutcome.resolved none ∧
    (combineAudioRecordings 44100 (fun _ : ℕ => none)
      (⟨[], none, false, "none"⟩ : IMState ℕ)).1.combinedAudioBlob = none :=
  ⟨rfl, rfl⟩

/-! ## Claim C6: decode failure -/

/-- C6 (amended): if any segment fails to decode, the `catch` handler logs
"Error combining audio:", shows an alert, and the promise resolves with
`undefined`; no WAV blob (and no partial result) is produced, the state is
unchanged — but no typed `DecodeError` identifying the segment index
propagates to the caller. -/
theorem c6_decode_failure {α : Type} (sr : ℕ) (decode : α → Option AudioBuffer)
    (st : IMState α) (hne : st.audioResponses ≠ [])
    (hdec : decodeAll decode st.audioResponses = none) :
    combineAudioRecordings sr decode st =
      (st, [Effect.consoleError "Error combining audio:",
            Effect.alertShown "Error combining audio recordings. Please try again."],
        AsyncOutcome.resolved none) :=
  combine_decodeFail sr decode st hne hdec

/-- C6 witness: the decode-failure theorem at a one-segment state whose
decode fails. -/
theorem c6_decode_failure_witness :
    combineAudioRecordings 2 (fun _ : ℕ => none) ⟨[7], none, false, "none"⟩ =
      ((⟨[7], none, false, "none"⟩ : IMState ℕ),
        [Effect.consoleError "Error combining audio:",
          Effect.alertShown "Error combining audio recordings. Please try again."],
        AsyncOutcome.resolved none) :=
  c6_decode_failure 2 (fun _ : ℕ => none) ⟨[7], none, false, "none"⟩ (by simp) rfl

/-- C6 counterexample: with one undecodable segment the promise resolves
with `undefined` — the failure is swallowed by the handler, not propagated
as a typed error to the caller. -/
theorem c6_decode_counterexample :
    (combineAudioRecordings 1 (fun _ : ℕ => none)
      (⟨[0], none, false, "none"⟩ : IMState ℕ)).2.2 = AsyncOutcome.resolved none ∧
    (combineAudioRecordings 1 (fun _ : ℕ => none)
      (⟨[0], none, false, "none"⟩ : IMState ℕ)).1 = ⟨[0], none, false, "none"⟩ :=
  ⟨rfl, rfl⟩

/-! ## Claim C7: clamping at the extremes -/

/-- C7: a sample of exactly `-1.0` encodes to `-32768`, exactly `1.0`
encodes to `32767`, and the out-of-range `1.5` encodes like `1.0`. -/
theorem c7_clamp_extremes :
    encodeSample (some (-1 : ℚ)) = -32768 ∧ encodeSample (some (1 : ℚ)) = 32767 ∧
    encodeSample (some (3 / 2 : ℚ)) = encodeSample (some (1 : ℚ)) := by
  refine ⟨?_, ?_, ?_⟩ <;>
    · simp only [encodeSample, clampSample, scaleSample, jsTrunc, min_def, max_def]
      norm_num

/-! ## Claim C8: side effects -/

/-- C8 (amended): the operation never emits a file write or a network
call; its only effects are console logging, alerts, object-URL creation
and the state mutations it performs on success. -/
theorem c8_no_file_or_network {α : Type} (sr : ℕ) (decode : α → Option AudioBuffer)
    (st : IMState α) :
    Effect.fileWrite ∉ (combineAudioRecordings sr decode st).2.1 ∧
    Effect.networkCall ∉ (combineAudioRecordings sr decode st).2.1 := by
  rw [combineAudioRecordings]
  split
  · exact ⟨by simp, by simp⟩
  · split
    · exact ⟨by simp, by simp⟩
    · split
      · exact ⟨by simp, by simp⟩
      · exact ⟨by simp, by simp⟩

/-- C8 counterexample: a successful run mutates shared state — it stores
the encoded blob in `this.combinedAudioBlob`, which was `none` before the
call. -/
theorem c8_state_mutation_counterexample :
    (combineAudioRecordings 1 (fun _ : ℕ => some ⟨[[0]], 1⟩)
      ⟨[0], none, false, "none"⟩).1.combinedAudioBlob ≠ none ∧
    (⟨[0], none, false, "none"⟩ : IMState ℕ).combinedAudioBlob = none := by
  constructor
  · have hsum : sumLen [(⟨[[0]], 1⟩ : AudioBuffer)] = 1 := rfl
    have hcl : combinedLength 1 [(⟨[[0]], 1⟩ : AudioBuffer)] = 1 := by
      rw [combinedLength_eq 1 _ (by norm_num)
        (by intro b hb; simp only [List.mem_singleton] at hb; rw [hb])
        (by rw [hsum]; norm_num), hsum]
    have hdec : decodeAll (fun _ : ℕ => some (⟨[[0]], 1⟩ : AudioBuffer)) [0] =
        some [⟨[[0]], 1⟩] := rfl
    have hfit : (List.replicate 1 (0 : ℚ)).length =
        0 + sumLen [(⟨[[0]], 1⟩ : AudioBuffer)] := by
      rw [List.length_replicate, hsum]
    have hcopy : copySegments (List.replicate (combinedLength 1
        [(⟨[[0]], 1⟩ : AudioBuffer)]) 0) [(⟨[[0]], 1⟩ : AudioBuffer)] 0 =
        some [(0 : ℚ)] := by
      conv_lhs => rw [hcl, copySegments_exact _ _ 0 hfit]
      rfl
    have h := combine_success 1 (fun _ : ℕ => some (⟨[[0]], 1⟩ : AudioBuffer))
      (⟨[0], none, false, "none"⟩ : IMState ℕ) _ _ (by simp) hdec hcopy
    rw [h]
    simp
  · rfl

/-! ## Claim C9: the two encoder copies agree -/

/-- C9: for a buffer with at least one channel and `len` equal to the
first channel sample count — the only way the encoders are invoked — the
method version (with the early break) and the standalone version return
identical byte streams. -/
theorem c9_encoders_agree (b : AudioBuffer) (len : ℕ) (hch : b.channels ≠ [])
    (hlen : len = b.chan0.length) : bufferToWaveMethod b len = bufferToWave b len :=
  bufferToWaveMethod_eq_bufferToWave b len hch hlen

/-- C9 witness: both encoders on a one-sample mono buffer at 8000 Hz. -/
theorem c9_encoders_agree_witness :
    bufferToWaveMethod ⟨[[(1 : ℚ) / 2]], 8000⟩ 1 = bufferToWave ⟨[[(1 : ℚ) / 2]], 8000⟩ 1 :=
  c9_encoders_agree ⟨[[(1 : ℚ) / 2]], 8000⟩ 1 (by simp) (by simp [AudioBuffer.chan0])

/-! ## Claim C10: termination and output size -/

/-- C10: for every buffer with at least one channel and every `len` both
encoders terminate (they are total functions of a decreasing loop measure)
and return exactly `len * numberOfChannels * 2 + 44` bytes. -/
theorem c10_length_and_termination (b : AudioBuffer) (len : ℕ)
    (_hch : b.channels ≠ []) :
    (bufferToWave b len).length = len * b.numberOfChannels * 2 + 44 ∧
    (bufferToWaveMethod b len).length = len * b.numberOfChannels * 2 + 44 :=
  ⟨bufferToWave_length b len, bufferToWaveMethod_length b len⟩

/-- C10 witness: the length theorem on a one-channel buffer with
`len = 3`: 50 bytes. -/
theorem c10_length_and_termination_witness :
    (bufferToWave ⟨[[]], 8000⟩ 3).length = 50 ∧
    (bufferToWaveMethod ⟨[[]], 8000⟩ 3).length = 50 :=
  c10_length_and_termination ⟨[[]], 8000⟩ 3 (by simp)

end Presence
